import Mathlib

/-!
Verification of the HALO-UTILS utility library (TypeScript).

This file gives a shallow embedding of the parts of the library that the
specification's claims are about:

* the JSON-array file store (`IOF.writeJSONFile` / `IOF.readJSONFile`),
  modelled at the level of parsed JSON content: the state of the target
  file is an `Option Json` (`none` = the file does not exist, `some j` =
  the file exists and its content parses to the JSON value `j`); disk and
  directory-creation failures are outside the model,
* the extension → MIME-type resolver (`mimeType`),
* the buffer digest helpers (`IOF.calculateHashByBuffer` /
  `IOF.calculateSizeByBuffer`), with a concrete SHA-256 implementation
  standing for Node's `crypto.createHash("sha256")`,
* the structured logger (`Logger`), with the runtime-supplied data
  (the formatted timestamp and the textual stack of `new Error().stack`
  split on newlines) passed as explicit parameters, and the process-wide
  `Logger.showFunctionName` flag passed as an explicit boolean.
-/

/-! ### JSON values

`Json` is the value universe for the JSON store.  Numbers are modelled as
integers: every numeric literal appearing in the claims is an integer, and
floating-point behaviour is not at issue in any claim. -/

inductive Json where
  | null : Json
  | bool : Bool → Json
  | num : Int → Json
  | str : String → Json
  | arr : List Json → Json
  | obj : List (String × Json) → Json

/-- `Array.isArray` on a parsed JSON value. -/
def Json.isArr : Json → Bool
  | .arr _ => true
  | _ => false

namespace IOF

/-- Embedding of `IOF.writeJSONFile` (src/files/IOFiles.ts).  The file is
modelled by its parsed content: `fileContent = none` means
`existsFileSync filePath` is false.  The function returns the parsed
content of the file after the write:

* if `overwrite` is true or the file does not exist, the final content is
  `data` when it is already an array, else `[data]`;
* otherwise the existing content is parsed, replaced by `[]` when its root
  is not an array, and `data` (spread when it is an array, as a single
  element otherwise) is appended.

Directory creation (`mkdir`) and filesystem write errors are outside this
model; the claims only concern successful writes. -/
def writeJSONFile (fileContent : Option Json) (data : Json) (overwrite : Bool) : Json :=
  if overwrite || fileContent.isNone then
    match data with
    | .arr _ => data
    | _ => .arr [data]
  else
    let arrayData :=
      match fileContent.getD .null with
      | .arr xs => xs
      | _ => []
    match data with
    | .arr ys => .arr (arrayData ++ ys)
    | d => .arr (arrayData ++ [d])

/-- Embedding of `IOF.readJSONFile` (src/files/IOFiles.ts).  The inner
`throw` of `File not found` / `File content is not an array` is caught by
the surrounding `catch` and re-thrown with the
`Failed to read JSON from <path>: ` prefix; both resulting messages are
reproduced verbatim.  Content that does not parse as JSON at all is not
representable in this model (the state is already-parsed content). -/
def readJSONFile (filePath : String) (fileContent : Option Json) :
    Except String (List Json) :=
  match fileContent with
  | none =>
      .error ("Failed to read JSON from " ++ filePath ++ ": File not found: " ++ filePath)
  | some (.arr xs) => .ok xs
  | some _ =>
      .error ("Failed to read JSON from " ++ filePath ++
        ": File content is not an array: " ++ filePath)

end IOF

/-! ### MIME resolver -/

/-- Embedding of the `switch` body of `mimeType` (src/files/mimeType.ts),
as a function of the already-extracted extension. -/
def mimeSwitch (ext : String) : String :=
  match ext with
  | "mp4" => "video/mp4"
  | "mpeg" | "mpg" | "mpe" | "mpv" | "mp2" | "m2v" | "m2ts" | "mts"
  | "tts" | "m2t" | "tsv" | "tsa" => "video/mpeg"
  | "webm" => "video/webm"
  | "3gp" => "video/3gpp"
  | "mkv" => "video/x-matroska"
  | "avi" => "video/x-msvideo"
  | "mov" => "video/quicktime"
  | "wmv" => "video/x-ms-wmv"
  | "flv" => "video/x-flv"
  | "m4v" => "video/x-m4v"
  | "mp3" => "audio/mpeg"
  | "m4a" => "audio/mp4"
  | "m4b" | "m4p" | "m4r" => "audio/mp4"
  | "wav" => "audio/wav"
  | "ogg" => "audio/ogg"
  | "aac" => "audio/aac"
  | "flac" => "audio/flac"
  | "alac" => "audio/alac"
  | "jpg" | "jpeg" => "image/jpeg"
  | "png" => "image/png"
  | "gif" => "image/gif"
  | "bmp" => "image/bmp"
  | "webp" => "image/webp"
  | "svg" => "image/svg+xml"
  | "ico" => "image/x-icon"
  | "tiff" => "image/tiff"
  | "psd" => "image/vnd.adobe.photoshop"
  | "ai" => "application/postscript"
  | "eps" => "application/postscript"
  | "indd" => "application/x-indesign"
  | "raw" => "image/x-raw"
  | "cr2" => "image/x-canon-cr2"
  | "nef" => "image/x-nikon-nef"
  | "orf" => "image/x-olympus-orf"
  | "rw2" => "image/x-panasonic-rw2"
  | "pef" => "image/x-pentax-pef"
  | "arw" => "image/x-sony-arw"
  | "dng" => "image/x-adobe-dng"
  | "x3f" => "image/x-sigma-x3f"
  | "cr3" => "image/x-canon-cr3"
  | "heic" => "image/heic"
  | "heif" => "image/heif"
  | "avif" => "image/avif"
  | "pdf" => "application/pdf"
  | "txt" => "text/plain"
  | "html" => "text/html"
  | "css" => "text/css"
  | "js" => "application/javascript"
  | "json" => "application/json"
  | "xml" => "application/xml"
  | "zip" => "application/zip"
  | "rar" => "application/x-rar-compressed"
  | "7z" => "application/x-7z-compressed"
  | _ => "application/octet-stream"

/-- The result of `fileName.split(".").pop()`: the last segment of the
split, i.e. the text after the last dot (the whole name when it has no
dot, the empty string when it ends in a dot).  Implemented as a character
fold — the current segment is reset at every dot — so that it evaluates
inside the kernel; `String.splitOn`, the direct transliteration, is
defined by well-founded recursion and does not reduce there. -/
def mimeExt (fileName : String) : String :=
  String.mk (fileName.data.foldl (fun acc c => if c == '.' then [] else acc ++ [c]) [])

/-- Embedding of `mimeType` (src/files/mimeType.ts):
`const ext = fileName.split(".").pop()` followed by the switch. -/
def mimeType (fileName : String) : String :=
  mimeSwitch (mimeExt fileName)

/-- The extension table as documented by the specification ("MIME table:
extension (lowercased, minus leading dot) → canonical MIME string").
Written from the spec's words for comparison with `mimeSwitch`, which is
written from the source. -/
def specMimeTable : List (String × String) :=
  [("mp4", "video/mp4"),
   ("mpeg", "video/mpeg"), ("mpg", "video/mpeg"), ("mpe", "video/mpeg"),
   ("mpv", "video/mpeg"), ("mp2", "video/mpeg"), ("m2v", "video/mpeg"),
   ("m2ts", "video/mpeg"), ("mts", "video/mpeg"), ("tts", "video/mpeg"),
   ("m2t", "video/mpeg"), ("tsv", "video/mpeg"), ("tsa", "video/mpeg"),
   ("webm", "video/webm"), ("3gp", "video/3gpp"), ("mkv", "video/x-matroska"),
   ("avi", "video/x-msvideo"), ("mov", "video/quicktime"), ("wmv", "video/x-ms-wmv"),
   ("flv", "video/x-flv"), ("m4v", "video/x-m4v"),
   ("mp3", "audio/mpeg"), ("m4a", "audio/mp4"), ("m4b", "audio/mp4"),
   ("m4p", "audio/mp4"), ("m4r", "audio/mp4"), ("wav", "audio/wav"),
   ("ogg", "audio/ogg"), ("aac", "audio/aac"), ("flac", "audio/flac"),
   ("alac", "audio/alac"),
   ("jpg", "image/jpeg"), ("jpeg", "image/jpeg"), ("png", "image/png"),
   ("gif", "image/gif"), ("bmp", "image/bmp"), ("webp", "image/webp"),
   ("svg", "image/svg+xml"), ("ico", "image/x-icon"), ("tiff", "image/tiff"),
   ("psd", "image/vnd.adobe.photoshop"), ("ai", "application/postscript"),
   ("eps", "application/postscript"), ("indd", "application/x-indesign"),
   ("raw", "image/x-raw"), ("cr2", "image/x-canon-cr2"), ("nef", "image/x-nikon-nef"),
   ("orf", "image/x-olympus-orf"), ("rw2", "image/x-panasonic-rw2"),
   ("pef", "image/x-pentax-pef"), ("arw", "image/x-sony-arw"),
   ("dng", "image/x-adobe-dng"), ("x3f", "image/x-sigma-x3f"),
   ("cr3", "image/x-canon-cr3"), ("heic", "image/heic"), ("heif", "image/heif"),
   ("avif", "image/avif"),
   ("pdf", "application/pdf"), ("txt", "text/plain"), ("html", "text/html"),
   ("css", "text/css"), ("js", "application/javascript"), ("json", "application/json"),
   ("xml", "application/xml"),
   ("zip", "application/zip"), ("rar", "application/x-rar-compressed"),
   ("7z", "application/x-7z-compressed")]

/-! ### Buffer digest

`calculateHashByBuffer` delegates the digest itself to Node's
`crypto.createHash("sha256")`; the SHA-256 algorithm (FIPS 180-4) is
implemented here concretely so that the shape of its output (64 lowercase
hexadecimal characters) is a theorem about an executable definition and not
an assumption.  All 32-bit arithmetic is `Nat` arithmetic reduced modulo
`2 ^ 32`. -/

namespace Sha256

/-- Truncation to a 32-bit word. -/
def w32 (n : Nat) : Nat := n % 4294967296

/-- Right rotation of a 32-bit word. -/
def rotr (k x : Nat) : Nat := w32 ((x >>> k) ||| (x <<< (32 - k)))

def bigSigma0 (x : Nat) : Nat := (rotr 2 x) ^^^ (rotr 13 x) ^^^ (rotr 22 x)

def bigSigma1 (x : Nat) : Nat := (rotr 6 x) ^^^ (rotr 11 x) ^^^ (rotr 25 x)

def smallSigma0 (x : Nat) : Nat := (rotr 7 x) ^^^ (rotr 18 x) ^^^ (x >>> 3)

def smallSigma1 (x : Nat) : Nat := (rotr 17 x) ^^^ (rotr 19 x) ^^^ (x >>> 10)

def ch (x y z : Nat) : Nat := (x &&& y) ^^^ ((x ^^^ 4294967295) &&& z)

def maj (x y z : Nat) : Nat := (x &&& y) ^^^ (x &&& z) ^^^ (y &&& z)

/-- The 64 round constants of SHA-256 (FIPS 180-4 section 4.2.2), written
in decimal. -/
def K64 : List Nat :=
  [1116352408, 1899447441, 3049323471, 3921009573, 961987163,
   1508970993, 2453635748, 2870763221, 3624381080, 310598401,
   607225278, 1426881987, 1925078388, 2162078206, 2614888103,
   3248222580, 3835390401, 4022224774, 264347078, 604807628,
   770255983, 1249150122, 1555081692, 1996064986, 2554220882,
   2821834349, 2952996808, 3210313671, 3336571891, 3584528711,
   113926993, 338241895, 666307205, 773529912, 1294757372,
   1396182291, 1695183700, 1986661051, 2177026350, 2456956037,
   2730485921, 2820302411, 3259730800, 3345764771, 3516065817,
   3600352804, 4094571909, 275423344, 430227734, 506948616,
   659060556, 883997877, 958139571, 1322822218, 1537002063,
   1747873779, 1955562222, 2024104815, 2227730452, 2361852424,
   2428436474, 2756734187, 3204031479, 3329325298]

/-- The eight hash registers. -/
structure Regs where
  a : Nat
  b : Nat
  c : Nat
  d : Nat
  e : Nat
  f : Nat
  g : Nat
  h : Nat

/-- The SHA-256 initial hash value (FIPS 180-4 section 5.3.3), written in
decimal. -/
def initH : Regs :=
  { a := 1779033703, b := 3144134277, c := 1013904242, d := 2773480762,
    e := 1359893119, f := 2600822924, g := 528734635, h := 1541459225 }

/-- Message padding: append `0x80`, zero bytes up to 56 mod 64, then the
bit length as 8 big-endian bytes. -/
def pad (msg : List Nat) : List Nat :=
  let L := msg.length
  let zeros := (119 - L % 64) % 64
  let bitLen := 8 * L
  msg ++ [128] ++ List.replicate zeros 0 ++
    [(bitLen >>> 56) % 256, (bitLen >>> 48) % 256, (bitLen >>> 40) % 256,
     (bitLen >>> 32) % 256, (bitLen >>> 24) % 256, (bitLen >>> 16) % 256,
     (bitLen >>> 8) % 256, bitLen % 256]

/-- Split the padded message into 64-byte blocks. -/
def chunks64 : List Nat → List (List Nat)
  | [] => []
  | l@(_ :: _) => l.take 64 :: chunks64 (l.drop 64)
termination_by l => l.length
decreasing_by simp_all [List.length_drop]; omega

/-- Big-endian 32-bit words of a block. -/
def toWords : List Nat → List Nat
  | b0 :: b1 :: b2 :: b3 :: rest =>
      ((b0 <<< 24) ||| (b1 <<< 16) ||| (b2 <<< 8) ||| b3) :: toWords rest
  | _ => []

/-- Extend the 16-word message schedule to 64 words. -/
def extendW (ws : Array Nat) : Array Nat :=
  if _h : ws.size < 64 then
    let i := ws.size
    let nw := w32 (smallSigma1 (ws.getD (i - 2) 0) + ws.getD (i - 7) 0 +
      smallSigma0 (ws.getD (i - 15) 0) + ws.getD (i - 16) 0)
    extendW (ws.push nw)
  else ws
termination_by 64 - ws.size
decreasing_by simp [Array.size_push]; omega

/-- One compression round. -/
def round (r : Regs) (kw : Nat × Nat) : Regs :=
  let t1 := w32 (r.h + bigSigma1 r.e + ch r.e r.f r.g + kw.1 + kw.2)
  let t2 := w32 (bigSigma0 r.a + maj r.a r.b r.c)
  { a := w32 (t1 + t2), b := r.a, c := r.b, d := r.c,
    e := w32 (r.d + t1), f := r.e, g := r.f, h := r.g }

/-- Compress one 64-byte block into the hash state. -/
def compressChunk (hs : Regs) (chunk : List Nat) : Regs :=
  let ws := extendW (Array.mk (toWords chunk))
  let r := (K64.zip ws.toList).foldl round hs
  { a := w32 (hs.a + r.a), b := w32 (hs.b + r.b), c := w32 (hs.c + r.c),
    d := w32 (hs.d + r.d), e := w32 (hs.e + r.e), f := w32 (hs.f + r.f),
    g := w32 (hs.g + r.g), h := w32 (hs.h + r.h) }

/-- The sixteen lowercase hexadecimal digits. -/
def hexChars : List Char := "0123456789abcdef".data

/-- The lowercase hexadecimal digit of `n % 16`. -/
def hexDigit (n : Nat) : Char := hexChars.getD (n % 16) '0'

/-- A 32-bit word as 8 lowercase hexadecimal characters. -/
def word32hex (n : Nat) : String :=
  String.mk [hexDigit (n >>> 28), hexDigit (n >>> 24), hexDigit (n >>> 20),
    hexDigit (n >>> 16), hexDigit (n >>> 12), hexDigit (n >>> 8),
    hexDigit (n >>> 4), hexDigit n]

/-- The final hash state: fold the compression function over the padded
message's blocks, starting from the initial hash value. -/
def sha256digest (msg : List Nat) : Regs :=
  (chunks64 (pad msg)).foldl compressChunk initH

/-- SHA-256 of a byte list, as the lowercase hexadecimal string that
Node's `crypto.createHash("sha256").update(buffer).digest("hex")`
produces. -/
def sha256hex (msg : List Nat) : String :=
  word32hex (sha256digest msg).a ++ word32hex (sha256digest msg).b ++
    word32hex (sha256digest msg).c ++ word32hex (sha256digest msg).d ++
    word32hex (sha256digest msg).e ++ word32hex (sha256digest msg).f ++
    word32hex (sha256digest msg).g ++ word32hex (sha256digest msg).h

end Sha256

/-- A JavaScript value passed to the buffer helpers: either an actual
`Buffer` (a list of bytes) or any non-`Buffer` value, which
`Buffer.isBuffer` rejects. -/
inductive BufValue where
  | buffer : List Nat → BufValue
  | nonBuffer : BufValue

namespace IOF

/-- Embedding of `IOF.calculateHashByBuffer` (src/files/IOFiles.ts):
rejects non-buffers and empty buffers with the source's messages,
otherwise returns the SHA-256 hex digest. -/
def calculateHashByBuffer : BufValue → Except String String
  | .nonBuffer => .error "Input must be a Buffer"
  | .buffer bs =>
      if bs.length = 0 then .error "Buffer cannot be empty"
      else .ok (Sha256.sha256hex bs)

/-- Embedding of `IOF.calculateSizeByBuffer` (src/files/IOFiles.ts):
rejects non-buffers and empty buffers, otherwise returns
`Buffer.byteLength(buffer)`, which for a `Buffer` is its length in
bytes. -/
def calculateSizeByBuffer : BufValue → Except String Nat
  | .nonBuffer => .error "Input must be a Buffer"
  | .buffer bs =>
      if bs.length = 0 then .error "Buffer cannot be empty"
      else .ok bs.length

end IOF

/-! ### Terminal palette

The string-valued entries of `TerminalColors`
(src/terminal/terminalColors.ts), one definition per object property, plus
`TerminalColors.lookup`, the model of a dynamic property access
`TerminalColors[key]` over the string-valued keys.  The four
function-valued members (`fg256`, `bg256`, `fgRGB`, `bgRGB`) are defined
as functions and are not in `lookup`'s table (accessing them by name from
`Logger.custom` would interpolate a function object, which no claim
exercises). -/

namespace TerminalColors

def _reset : String := "\x1B[0m"
def _bright : String := "\x1B[1m"
def _dim : String := "\x1B[2m"
def _italic : String := "\x1B[3m"
def _blink : String := "\x1B[5m"
def _reverse : String := "\x1B[7m"
def _hidden : String := "\x1B[8m"
def _strikethrough : String := "\x1B[9m"
def _underline : String := "\x1B[4m"
def BLACK : String := "\x1B[30m"
def RED : String := "\x1B[31m"
def GREEN : String := "\x1B[32m"
def YELLOW : String := "\x1B[33m"
def BLUE : String := "\x1B[34m"
def MAGENTA : String := "\x1B[35m"
def CYAN : String := "\x1B[36m"
def WHITE : String := "\x1B[37m"
def BRIGHT_BLACK : String := "\x1B[90m"
def BRIGHT_RED : String := "\x1B[91m"
def BRIGHT_GREEN : String := "\x1B[92m"
def BRIGHT_YELLOW : String := "\x1B[93m"
def BRIGHT_BLUE : String := "\x1B[94m"
def BRIGHT_MAGENTA : String := "\x1B[95m"
def BRIGHT_CYAN : String := "\x1B[96m"
def BRIGHT_WHITE : String := "\x1B[97m"
def BBLACK : String := "\x1B[40m"
def BRED : String := "\x1B[41m"
def BGREEN : String := "\x1B[42m"
def BYELLOW : String := "\x1B[43m"
def BBLUE : String := "\x1B[44m"
def BMAGENTA : String := "\x1B[45m"
def BCYAN : String := "\x1B[46m"
def BWHITE : String := "\x1B[47m"
def BBRIGHT_BLACK : String := "\x1B[100m"
def BBRIGHT_RED : String := "\x1B[101m"
def BBRIGHT_GREEN : String := "\x1B[102m"
def BBRIGHT_YELLOW : String := "\x1B[103m"
def BBRIGHT_BLUE : String := "\x1B[104m"
def BBRIGHT_MAGENTA : String := "\x1B[105m"
def BBRIGHT_CYAN : String := "\x1B[106m"
def BBRIGHT_WHITE : String := "\x1B[107m"

def fg256 (n : Nat) : String := "\x1B[38;5;" ++ toString n ++ "m"
def bg256 (n : Nat) : String := "\x1B[48;5;" ++ toString n ++ "m"
def fgRGB (r g b : Nat) : String :=
  "\x1B[38;2;" ++ toString r ++ ";" ++ toString g ++ ";" ++ toString b ++ "m"
def bgRGB (r g b : Nat) : String :=
  "\x1B[48;2;" ++ toString r ++ ";" ++ toString g ++ ";" ++ toString b ++ "m"

/-- The string-valued properties of the `TerminalColors` object, keyed by
property name, for dynamic access `TerminalColors[key]`. -/
def table : List (String × String) :=
  [("_reset", _reset), ("_bright", _bright), ("_dim", _dim), ("_italic", _italic),
   ("_underline", _underline), ("_blink", _blink), ("_reverse", _reverse),
   ("_hidden", _hidden), ("_strikethrough", _strikethrough),
   ("BLACK", BLACK), ("RED", RED), ("GREEN", GREEN), ("YELLOW", YELLOW),
   ("BLUE", BLUE), ("MAGENTA", MAGENTA), ("CYAN", CYAN), ("WHITE", WHITE),
   ("BRIGHT_BLACK", BRIGHT_BLACK), ("BRIGHT_RED", BRIGHT_RED),
   ("BRIGHT_GREEN", BRIGHT_GREEN), ("BRIGHT_YELLOW", BRIGHT_YELLOW),
   ("BRIGHT_BLUE", BRIGHT_BLUE), ("BRIGHT_MAGENTA", BRIGHT_MAGENTA),
   ("BRIGHT_CYAN", BRIGHT_CYAN), ("BRIGHT_WHITE", BRIGHT_WHITE),
   ("BBLACK", BBLACK), ("BRED", BRED), ("BGREEN", BGREEN), ("BYELLOW", BYELLOW),
   ("BBLUE", BBLUE), ("BMAGENTA", BMAGENTA), ("BCYAN", BCYAN), ("BWHITE", BWHITE),
   ("BBRIGHT_BLACK", BBRIGHT_BLACK), ("BBRIGHT_RED", BBRIGHT_RED),
   ("BBRIGHT_GREEN", BBRIGHT_GREEN), ("BBRIGHT_YELLOW", BBRIGHT_YELLOW),
   ("BBRIGHT_BLUE", BBRIGHT_BLUE), ("BBRIGHT_MAGENTA", BBRIGHT_MAGENTA),
   ("BBRIGHT_CYAN", BBRIGHT_CYAN), ("BBRIGHT_WHITE", BBRIGHT_WHITE)]

/-- Dynamic property access `TerminalColors[key]`; `none` models
`undefined`. -/
def lookup (key : String) : Option String :=
  (table.find? (fun p => p.1 == key)).map Prod.snd

end TerminalColors

/-! ### Logger

A JavaScript value passed as a log argument.  `error` carries
`Error.stack` (an `Option`: `undefined` is `none`) and `Error.message`;
every other shape of value is the corresponding JSON-like constructor.
`JSVal` covers the values `JSON.stringify` accepts; the full argument
universe, including the `BigInt` shape on which `JSON.stringify` throws,
is `JSRaw` further below, and `JSVal.toRaw` embeds this type into it. -/

inductive JSVal where
  | null : JSVal
  | bool : Bool → JSVal
  | num : Int → JSVal
  | str : String → JSVal
  | arr : List JSVal → JSVal
  | obj : List (String × JSVal) → JSVal
  | error : Option String → String → JSVal

/-- `JSON.stringify`'s escaping of one character inside a string value:
backslash, double quote and the named control escapes.  The `\uXXXX`
escapes of the remaining control characters are omitted — no character
below `0x20` other than the named ones occurs in any value considered
here, and no theorem depends on the rendered text. -/
def jsonEscapeChar (c : Char) : List Char :=
  if c = '\\' then ['\\', '\\']
  else if c = '\x22' then ['\\', '\x22']
  else if c = '\n' then ['\\', 'n']
  else if c = '\r' then ['\\', 'r']
  else if c = '\t' then ['\\', 't']
  else if c = '\x08' then ['\\', 'b']
  else if c = '\x0c' then ['\\', 'f']
  else [c]

/-- `JSON.stringify`'s escaping of a whole string value. -/
def jsonEscape (s : String) : String :=
  String.mk (s.data.foldr (fun c acc => jsonEscapeChar c ++ acc) [])

mutual

/-- Compact `JSON.stringify` of a value.  An `Error` has no enumerable own
properties, so nested inside a plain object or array it serialises to
an empty object. -/
def jsonStringify : JSVal → String
  | .null => "null"
  | .bool b => toString b
  | .num n => toString n
  | .str s => "\x22" ++ jsonEscape s ++ "\x22"
  | .arr xs => "[" ++ jsonStringifyList xs ++ "]"
  | .obj fs => "\x7b" ++ jsonStringifyFields fs ++ "\x7d"
  | .error _ _ => "\x7b\x7d"

def jsonStringifyList : List JSVal → String
  | [] => ""
  | [x] => jsonStringify x
  | x :: xs => jsonStringify x ++ "," ++ jsonStringifyList xs

def jsonStringifyFields : List (String × JSVal) → String
  | [] => ""
  | [(k, v)] => "\x22" ++ jsonEscape k ++ "\x22:" ++ jsonStringify v
  | (k, v) :: fs =>
      "\x22" ++ jsonEscape k ++ "\x22:" ++ jsonStringify v ++ "," ++ jsonStringifyFields fs

end

/-- The per-argument rendering of `Logger`'s console line
(`args.map(...)` in `logWithReturn` / `customWithReturn`):
`Error`s render as `a.stack || a.message`, values of `typeof "object"`
(`null` included) render as compact JSON, everything else through
JavaScript's default string conversion. -/
def stringifyArg : JSVal → String
  | .error stack msg =>
      match stack with
      | some s => if s = "" then msg else s
      | none => msg
  | .null => jsonStringify .null
  | .arr xs => jsonStringify (.arr xs)
  | .obj fs => jsonStringify (.obj fs)
  | .str s => s
  | .num n => toString n
  | .bool b => toString b

/-! #### Caller-name detection

`getCallerName` / `getCallerNameForced` scan the textual stack of
`new Error()`.  The stack is supplied as the list of its lines; the two
regular expressions of the source are implemented character by character
(`\w` = ASCII letter, digit or underscore; `\s` = whitespace). -/

def isWordChar (c : Char) : Bool := c.isAlpha || c.isDigit || c == '_'

/-- Substring test on character lists (`String.prototype.includes`). -/
def isPrefixCh : List Char → List Char → Bool
  | [], _ => true
  | _ :: _, [] => false
  | a :: as, b :: bs => a == b && isPrefixCh as bs

def containsCh (needle : List Char) : List Char → Bool
  | [] => isPrefixCh needle []
  | c :: cs => isPrefixCh needle (c :: cs) || containsCh needle cs

def includesSub (s sub : String) : Bool := containsCh sub.data s.data

/-- Consume one or more whitespace characters (`\s+`); `none` when the
input does not start with whitespace. -/
def dropWsAll : List Char → List Char
  | [] => []
  | c :: cs => if c.isWhitespace then dropWsAll cs else c :: cs

def dropWs1 : List Char → Option (List Char)
  | [] => none
  | c :: cs => if c.isWhitespace then some (dropWsAll cs) else none

/-- The maximal `\w+` run at the head of the input, with the rest. -/
def spanWord : List Char → List Char × List Char
  | [] => ([], [])
  | c :: cs =>
      if isWordChar c then
        let (w, r) := spanWord cs
        (c :: w, r)
      else ([], c :: cs)

/-- Try `/at\s+(\w+)\s+\(/` at this exact position, returning the capture.
The three character classes involved (`\w`, `\s`, the literal `(`) are
pairwise disjoint, so greedy scanning without backtracking agrees with the
regex engine. -/
def matchAtNameAt (l : List Char) : Option String :=
  match l with
  | 'a' :: 't' :: rest =>
      match dropWs1 rest with
      | none => none
      | some r1 =>
          if (spanWord r1).1 = [] then none
          else
            match dropWs1 (spanWord r1).2 with
            | some ('(' :: _) => some (String.mk (spanWord r1).1)
            | _ => none
  | _ => none

/-- `line.match(/at\s+(\w+)\s+\(/)`: the capture at the leftmost position
where the pattern matches. -/
def findAtName : List Char → Option String
  | [] => none
  | l@(_ :: rest) =>
      match matchAtNameAt l with
      | some nm => some nm
      | none => findAtName rest

/-- Try `/at\s+<anonymous>\s+\(/` at this exact position. -/
def matchAtAnonAt : List Char → Bool
  | 'a' :: 't' :: rest =>
      match dropWs1 rest with
      | some r1 =>
          if isPrefixCh "<anonymous>".data r1 then
            match dropWs1 (r1.drop 11) with
            | some ('(' :: _) => true
            | _ => false
          else false
      | none => false
  | _ => false

def hasAtAnonParen : List Char → Bool
  | [] => false
  | l@(_ :: rest) => matchAtAnonAt l || hasAtAnonParen rest

/-- The frame markers whose presence makes the scanner skip a stack line
(the long `line.includes(...)` disjunction of `getCallerName` /
`getCallerNameForced`). -/
def skipMarkers : List String :=
  ["Logger.log", "Logger.success", "Logger.error", "Logger.warn",
   "Logger.info", "Logger.debug", "Logger.custom",
   "Function.getCallerName", "Function.logWithReturn",
   "Function.customWithReturn", "at Object.<anonymous>", "Module._compile",
   "at Module.load", "transformer"]

def isSkippedLine (line : String) : Bool :=
  skipMarkers.any (fun m => includesSub line m)

/-- `line.includes("at <anonymous>") && !line.match(/at\s+<anonymous>\s+\(/)`. -/
def anonSkipLine (line : String) : Bool :=
  includesSub line "at <anonymous>" && !hasAtAnonParen line.data

/-- `line.trim() !== ""`. -/
def trimNonempty (line : String) : Bool :=
  line.data.any (fun c => !c.isWhitespace)

/-- The captured name of the first name match, filtered as in the source:
a capture equal to `Object` or `Function` does not count. -/
def goodNameLine (line : String) : Option String :=
  match findAtName line.data with
  | some nm => if nm == "Object" || nm == "Function" then none else some nm
  | none => none

/-- The scanning loop shared verbatim by `getCallerName` (after its flag
check) and `getCallerNameForced`, over the stack lines from index 2 on. -/
def scanStack : List String → String
  | [] => ""
  | line :: rest =>
      if isSkippedLine line then scanStack rest
      else if anonSkipLine line then scanStack rest
      else if trimNonempty line then
        match goodNameLine line with
        | some nm => "fn: " ++ nm
        | none =>
            if includesSub line "at <anonymous>" then "fn: <anonymous>"
            else scanStack rest
      else scanStack rest

namespace Logger

/-- Embedding of `Logger.getCallerNameForced` (src/terminal/logger.ts).
`stack` is the list of lines of `new Error().stack`; an absent stack is
the empty list (both yield `""`).  The loop starts at line index 2. -/
def getCallerNameForced (stack : List String) : String :=
  scanStack (stack.drop 2)

/-- Embedding of `Logger.getCallerName`: returns `""` immediately when
`showFunctionName` is false, otherwise runs the identical scanning loop. -/
def getCallerName (showFunctionName : Bool) (stack : List String) : String :=
  if !showFunctionName then "" else scanStack (stack.drop 2)

/-- The level → color table of `logWithReturn` with its
`colorMap[type] || TerminalColors._reset` fallback. -/
def colorMap (ty : String) : String :=
  if ty == "DEBUG" then TerminalColors.MAGENTA
  else if ty == "WARN" then TerminalColors.BYELLOW
  else if ty == "ERROR" then TerminalColors.RED
  else if ty == "INFO" then TerminalColors.BLUE
  else if ty == "SUCCESS" then TerminalColors.GREEN
  else TerminalColors._reset

end Logger

/-- The record returned by every `Logger` method
(the `LogReturn` interface). -/
structure LogReturn where
  pfn : String
  timestamp : String
  message : JSVal
  level : String

/-- The observable outcome of one `Logger` call: the console writes the
call performs (`writes`, one string per `console.log` / `console.info`
call), the `displayFunctionName` local that is interpolated into the
line, and the returned `LogReturn` record. -/
structure LogOutput where
  writes : List String
  displayFn : String
  record : LogReturn

/-- `detectedFunctionName.replace("fn: ", "")` — JavaScript `replace`
with a string pattern replaces the first occurrence only. -/
def replaceFirstCh (pat rep : List Char) : List Char → List Char
  | [] => if pat.isEmpty then rep else []
  | c :: cs =>
      if isPrefixCh pat (c :: cs) then rep ++ (c :: cs).drop pat.length
      else c :: replaceFirstCh pat rep cs

def replaceFirst (pat rep s : String) : String :=
  String.mk (replaceFirstCh pat.data rep.data s.data)

namespace Logger

/-- Embedding of `Logger.logWithReturn` (src/terminal/logger.ts).

Runtime-supplied data appears as parameters: `showFunctionName` is the
process-wide flag at call time, `currentTime` is
`Time.getTimeToLogFormat()`'s result, `stack` the lines of
`new Error().stack` inside the caller-name helpers.  The single
`logMethod(...)` call (whether routed to `console.log` or `console.info`,
both of which print one line to standard output) is recorded as the single
element of `writes`.

This version is over the serialisable argument universe `JSVal`, on which
the call always completes; `LoggerJS.logWithReturn` below is the same
function over the full universe `JSRaw`, where `JSON.stringify`'s
failure path is representable, and agrees with this one on embedded
`JSVal` arguments (`logWithReturn_toRaw`). -/
def logWithReturn (showFunctionName : Bool) (currentTime : String)
    (stack : List String) (ty : String) (withFunctionName : Bool)
    (args : List JSVal) : LogOutput :=
  let color := colorMap ty
  let detectedFunctionName := getCallerNameForced stack
  let displayFunctionName :=
    if withFunctionName then detectedFunctionName
    else if showFunctionName then getCallerName showFunctionName stack
    else ""
  let processedMessage : JSVal :=
    match args with
    | [a] => a
    | [] => .str ""
    | l => .arr l
  let consoleMessage := String.intercalate " " (args.map stringifyArg)
  let line := TerminalColors._dim ++ "[" ++ currentTime ++ "]" ++
    TerminalColors._reset ++ " " ++ color ++ "[" ++ ty ++ "]" ++
    TerminalColors._reset ++ " " ++ displayFunctionName ++ ": " ++ consoleMessage
  { writes := [line], displayFn := displayFunctionName,
    record :=
      { pfn := replaceFirst "fn: " "" detectedFunctionName,
        timestamp := currentTime, message := processedMessage, level := ty } }

/-- Embedding of `Logger.customWithReturn` (src/terminal/logger.ts).
`optColor = none` models an absent `opt.color`; `opt.color || "CYAN"`
also replaces an empty string.  An unrecognised color name makes
`TerminalColors[logColor]` `undefined`, which the template literal
renders as the text `undefined`. -/
def customWithReturn (showFunctionName : Bool) (currentTime : String)
    (stack : List String) (optTy : String) (optColor : Option String)
    (withFunctionName : Bool) (args : List JSVal) : LogOutput :=
  let logColor :=
    match optColor with
    | some c => if c == "" then "CYAN" else c
    | none => "CYAN"
  let colorCode := (TerminalColors.lookup logColor).getD "undefined"
  let detectedFunctionName := getCallerNameForced stack
  let displayFunctionName :=
    if withFunctionName then detectedFunctionName
    else if showFunctionName then getCallerName showFunctionName stack
    else ""
  let processedMessage : JSVal :=
    match args with
    | [a] => a
    | [] => .str ""
    | l => .arr l
  let consoleMessage := String.intercalate " " (args.map stringifyArg)
  let line := TerminalColors._dim ++ "[" ++ currentTime ++ "]" ++
    TerminalColors._reset ++ " " ++ colorCode ++ "[" ++ optTy ++ "]" ++
    TerminalColors._reset ++ " " ++ displayFunctionName ++ ": " ++ consoleMessage
  { writes := [line], displayFn := displayFunctionName,
    record :=
      { pfn := replaceFirst "fn: " "" detectedFunctionName,
        timestamp := currentTime, message := processedMessage, level := optTy } }

/-- `Logger.success`: plain variant, passes the current flag as
`withFunctionName`. -/
def success (flag : Bool) (t : String) (st : List String) (args : List JSVal) :
    LogOutput :=
  logWithReturn flag t st "SUCCESS" flag args

def error (flag : Bool) (t : String) (st : List String) (args : List JSVal) :
    LogOutput :=
  logWithReturn flag t st "ERROR" flag args

def warn (flag : Bool) (t : String) (st : List String) (args : List JSVal) :
    LogOutput :=
  logWithReturn flag t st "WARN" flag args

def info (flag : Bool) (t : String) (st : List String) (args : List JSVal) :
    LogOutput :=
  logWithReturn flag t st "INFO" flag args

def debug (flag : Bool) (t : String) (st : List String) (args : List JSVal) :
    LogOutput :=
  logWithReturn flag t st "DEBUG" flag args

def custom (flag : Bool) (t : String) (st : List String) (optTy : String)
    (optColor : Option String) (args : List JSVal) : LogOutput :=
  customWithReturn flag t st optTy optColor flag args

namespace pfn

/-- `Logger.pfn.success`: forced variant, passes `true` as
`withFunctionName` regardless of the flag. -/
def success (flag : Bool) (t : String) (st : List String) (args : List JSVal) :
    LogOutput :=
  logWithReturn flag t st "SUCCESS" true args

def error (flag : Bool) (t : String) (st : List String) (args : List JSVal) :
    LogOutput :=
  logWithReturn flag t st "ERROR" true args

def warn (flag : Bool) (t : String) (st : List String) (args : List JSVal) :
    LogOutput :=
  logWithReturn flag t st "WARN" true args

def info (flag : Bool) (t : String) (st : List String) (args : List JSVal) :
    LogOutput :=
  logWithReturn flag t st "INFO" true args

def debug (flag : Bool) (t : String) (st : List String) (args : List JSVal) :
    LogOutput :=
  logWithReturn flag t st "DEBUG" true args

def custom (flag : Bool) (t : String) (st : List String) (optTy : String)
    (optColor : Option String) (args : List JSVal) : LogOutput :=
  customWithReturn flag t st optTy optColor true args

end pfn

end Logger

/-! ### Logger over the full argument universe

`JSRaw` is `JSVal` extended with `bigint`, the JavaScript `BigInt` shape
(`typeof` `"bigint"`).  `JSON.stringify` throws a `TypeError` on a
`BigInt` value reached through an object or array, so over `JSRaw` the
stringification — and with it `logWithReturn` / `customWithReturn`,
which call it with no `try`/`catch` — is fallible.  (The one other
non-serialisable shape, a circular object, has no counterpart in an
inductive type; `JSON.stringify` throws a `TypeError` on it the same
way.) -/

inductive JSRaw where
  | null : JSRaw
  | bool : Bool → JSRaw
  | num : Int → JSRaw
  | str : String → JSRaw
  | arr : List JSRaw → JSRaw
  | obj : List (String × JSRaw) → JSRaw
  | error : Option String → String → JSRaw
  | bigint : Int → JSRaw

mutual

/-- Compact `JSON.stringify` over the full universe: as `jsonStringify`,
but a `BigInt` value throws (V8's `TypeError` message).  Serialisation is
left to right, so the first offending value's error propagates, as in the
source. -/
def jsonStringifyT : JSRaw → Except String String
  | .null => .ok "null"
  | .bool b => .ok (toString b)
  | .num n => .ok (toString n)
  | .str s => .ok ("\x22" ++ jsonEscape s ++ "\x22")
  | .arr xs =>
      match jsonStringifyListT xs with
      | .ok body => .ok ("[" ++ body ++ "]")
      | .error e => .error e
  | .obj fs =>
      match jsonStringifyFieldsT fs with
      | .ok body => .ok ("\x7b" ++ body ++ "\x7d")
      | .error e => .error e
  | .error _ _ => .ok "\x7b\x7d"
  | .bigint _ => .error "TypeError: Do not know how to serialize a BigInt"

def jsonStringifyListT : List JSRaw → Except String String
  | [] => .ok ""
  | [x] => jsonStringifyT x
  | x :: xs =>
      match jsonStringifyT x with
      | .error e => .error e
      | .ok sx =>
          match jsonStringifyListT xs with
          | .error e => .error e
          | .ok rest => .ok (sx ++ "," ++ rest)

def jsonStringifyFieldsT : List (String × JSRaw) → Except String String
  | [] => .ok ""
  | [(k, v)] =>
      match jsonStringifyT v with
      | .error e => .error e
      | .ok sv => .ok ("\x22" ++ jsonEscape k ++ "\x22:" ++ sv)
  | (k, v) :: fs =>
      match jsonStringifyT v with
      | .error e => .error e
      | .ok sv =>
          match jsonStringifyFieldsT fs with
          | .error e => .error e
          | .ok rest => .ok ("\x22" ++ jsonEscape k ++ "\x22:" ++ sv ++ "," ++ rest)

end

/-- The per-argument rendering over the full universe: as `stringifyArg`,
except that the `typeof "object"` branch propagates `JSON.stringify`'s
error.  A top-level `BigInt` is `typeof "bigint"`, so it takes the
`String(a)` branch (`String(10n)` is `"10"`) and does not throw. -/
def stringifyArgT : JSRaw → Except String String
  | .error stack msg =>
      .ok (match stack with
        | some s => if s = "" then msg else s
        | none => msg)
  | .null => jsonStringifyT .null
  | .arr xs => jsonStringifyT (.arr xs)
  | .obj fs => jsonStringifyT (.obj fs)
  | .str s => .ok s
  | .num n => .ok (toString n)
  | .bool b => .ok (toString b)
  | .bigint n => .ok (toString n)

/-- Whether rendering the argument for the console line succeeds — i.e.
whether `JSON.stringify` accepts it when it takes the object branch. -/
def serializes (a : JSRaw) : Bool :=
  match stringifyArgT a with
  | .ok _ => true
  | .error _ => false

/-- `args.map(...)`: the callback runs left to right and the first throw
aborts the whole call. -/
def stringifyArgsT : List JSRaw → Except String (List String)
  | [] => .ok []
  | a :: as =>
      match stringifyArgT a with
      | .error e => .error e
      | .ok s =>
          match stringifyArgsT as with
          | .error e => .error e
          | .ok rest => .ok (s :: rest)

/-- The `LogReturn` record over the full argument universe. -/
structure LogReturnJS where
  pfn : String
  timestamp : String
  message : JSRaw
  level : String

/-- The observable outcome of a completing `Logger` call over the full
universe; a call on which `JSON.stringify` throws produces no outcome
(the surrounding `Except` is `.error`). -/
structure LogOutputJS where
  writes : List String
  displayFn : String
  record : LogReturnJS

mutual

/-- The inclusion of the serialisable universe into the full one. -/
def JSVal.toRaw : JSVal → JSRaw
  | .null => .null
  | .bool b => .bool b
  | .num n => .num n
  | .str s => .str s
  | .arr xs => .arr (JSVal.toRawList xs)
  | .obj fs => .obj (JSVal.toRawFields fs)
  | .error st m => .error st m

def JSVal.toRawList : List JSVal → List JSRaw
  | [] => []
  | x :: xs => JSVal.toRaw x :: JSVal.toRawList xs

def JSVal.toRawFields : List (String × JSVal) → List (String × JSRaw)
  | [] => []
  | (k, v) :: fs => (k, JSVal.toRaw v) :: JSVal.toRawFields fs

end

namespace LoggerJS

/-- Embedding of `Logger.logWithReturn` over the full argument universe.
Everything up to `consoleMessage` is as in `Logger.logWithReturn`; the
`args.map(...)` building `consoleMessage` calls `JSON.stringify` with no
`try`/`catch`, so its `TypeError` propagates out of the method: the
result is then `.error`, no line is written and no record is returned.
The source performs the single `logMethod(...)` call only after
`consoleMessage` is built. -/
def logWithReturn (showFunctionName : Bool) (currentTime : String)
    (stack : List String) (ty : String) (withFunctionName : Bool)
    (args : List JSRaw) : Except String LogOutputJS :=
  let color := Logger.colorMap ty
  let detectedFunctionName := Logger.getCallerNameForced stack
  let displayFunctionName :=
    if withFunctionName then detectedFunctionName
    else if showFunctionName then Logger.getCallerName showFunctionName stack
    else ""
  let processedMessage : JSRaw :=
    match args with
    | [a] => a
    | [] => .str ""
    | l => .arr l
  match stringifyArgsT args with
  | .error e => .error e
  | .ok pieces =>
      let consoleMessage := String.intercalate " " pieces
      let line := TerminalColors._dim ++ "[" ++ currentTime ++ "]" ++
        TerminalColors._reset ++ " " ++ color ++ "[" ++ ty ++ "]" ++
        TerminalColors._reset ++ " " ++ displayFunctionName ++ ": " ++ consoleMessage
      .ok { writes := [line], displayFn := displayFunctionName,
            record :=
              { pfn := replaceFirst "fn: " "" detectedFunctionName,
                timestamp := currentTime, message := processedMessage, level := ty } }

/-- Embedding of `Logger.customWithReturn` over the full argument
universe, with the same propagated `JSON.stringify` failure. -/
def customWithReturn (showFunctionName : Bool) (currentTime : String)
    (stack : List String) (optTy : String) (optColor : Option String)
    (withFunctionName : Bool) (args : List JSRaw) : Except String LogOutputJS :=
  let logColor :=
    match optColor with
    | some c => if c == "" then "CYAN" else c
    | none => "CYAN"
  let colorCode := (TerminalColors.lookup logColor).getD "undefined"
  let detectedFunctionName := Logger.getCallerNameForced stack
  let displayFunctionName :=
    if withFunctionName then detectedFunctionName
    else if showFunctionName then Logger.getCallerName showFunctionName stack
    else ""
  let processedMessage : JSRaw :=
    match args with
    | [a] => a
    | [] => .str ""
    | l => .arr l
  match stringifyArgsT args with
  | .error e => .error e
  | .ok pieces =>
      let consoleMessage := String.intercalate " " pieces
      let line := TerminalColors._dim ++ "[" ++ currentTime ++ "]" ++
        TerminalColors._reset ++ " " ++ colorCode ++ "[" ++ optTy ++ "]" ++
        TerminalColors._reset ++ " " ++ displayFunctionName ++ ": " ++ consoleMessage
      .ok { writes := [line], displayFn := displayFunctionName,
            record :=
              { pfn := replaceFirst "fn: " "" detectedFunctionName,
                timestamp := currentTime, message := processedMessage, level := optTy } }

def success (flag : Bool) (t : String) (st : List String) (args : List JSRaw) :
    Except String LogOutputJS :=
  logWithReturn flag t st "SUCCESS" flag args

def error (flag : Bool) (t : String) (st : List String) (args : List JSRaw) :
    Except String LogOutputJS :=
  logWithReturn flag t st "ERROR" flag args

def warn (flag : Bool) (t : String) (st : List String) (args : List JSRaw) :
    Except String LogOutputJS :=
  logWithReturn flag t st "WARN" flag args

def info (flag : Bool) (t : String) (st : List String) (args : List JSRaw) :
    Except String LogOutputJS :=
  logWithReturn flag t st "INFO" flag args

def debug (flag : Bool) (t : String) (st : List String) (args : List JSRaw) :
    Except String LogOutputJS :=
  logWithReturn flag t st "DEBUG" flag args

def custom (flag : Bool) (t : String) (st : List String) (optTy : String)
    (optColor : Option String) (args : List JSRaw) : Except String LogOutputJS :=
  customWithReturn flag t st optTy optColor flag args

namespace pfn

def success (flag : Bool) (t : String) (st : List String) (args : List JSRaw) :
    Except String LogOutputJS :=
  logWithReturn flag t st "SUCCESS" true args

def error (flag : Bool) (t : String) (st : List String) (args : List JSRaw) :
    Except String LogOutputJS :=
  logWithReturn flag t st "ERROR" true args

def warn (flag : Bool) (t : String) (st : List String) (args : List JSRaw) :
    Except String LogOutputJS :=
  logWithReturn flag t st "WARN" true args

def info (flag : Bool) (t : String) (st : List String) (args : List JSRaw) :
    Except String LogOutputJS :=
  logWithReturn flag t st "INFO" true args

def debug (flag : Bool) (t : String) (st : List String) (args : List JSRaw) :
    Except String LogOutputJS :=
  logWithReturn flag t st "DEBUG" true args

def custom (flag : Bool) (t : String) (st : List String) (optTy : String)
    (optColor : Option String) (args : List JSRaw) : Except String LogOutputJS :=
  customWithReturn flag t st optTy optColor true args

end pfn

end LoggerJS

/-- A completed call's outcome, viewed in the full universe: the record's
message is embedded by `JSVal.toRaw`, everything else is unchanged.  Used
to state that `Logger.logWithReturn` is `LoggerJS.logWithReturn`
restricted to serialisable arguments. -/
def LogOutput.toRaw (o : LogOutput) : LogOutputJS :=
  { writes := o.writes, displayFn := o.displayFn,
    record :=
      { pfn := o.record.pfn, timestamp := o.record.timestamp,
        message := o.record.message.toRaw, level := o.record.level } }

/-- A stack line that the scanning loop can extract a usable name from:
not skipped by the marker filters, and carrying a (non-`Object`,
non-`Function`) name match — i.e. the line of a named calling function. -/
def usableFrame (line : String) : Bool :=
  !isSkippedLine line && !anonSkipLine line && trimNonempty line &&
    (goodNameLine line).isSome

/-! ## Theorems -/

/-! ### JSON store (C1-C4) -/

/-- C1: on a fresh path, writing `[{"a":1}]` with `overwrite = true`, then
writing `[{"a":2}]` with `overwrite = false`, then reading, returns
`[{"a":1},{"a":2}]` — existing entries first, appended entries after, in
the order given. -/
theorem jsonStore_roundTrip_c1 :
    IOF.readJSONFile "store.json"
      (some (IOF.writeJSONFile
        (some (IOF.writeJSONFile none (.arr [.obj [("a", .num 1)]]) true))
        (.arr [.obj [("a", .num 2)]]) false))
      = .ok [.obj [("a", .num 1)], .obj [("a", .num 2)]] := rfl

/-- C2: appending (overwrite = false) a single item `{"y":2}` onto an
existing file whose parsed root is not an array succeeds and leaves the
file containing exactly `[{"y":2}]` — the prior non-array content is
silently discarded. -/
theorem jsonStore_appendNonArray_c2 (j : Json) (hj : j.isArr = false) :
    IOF.writeJSONFile (some j) (.obj [("y", .num 2)]) false
      = .arr [.obj [("y", .num 2)]] := by
  cases j <;> simp_all [IOF.writeJSONFile, Json.isArr]

theorem jsonStore_appendNonArray_c2_witness :
    (Json.obj [("x", Json.num 1)]).isArr = false ∧
    IOF.writeJSONFile (some (.obj [("x", .num 1)])) (.obj [("y", .num 2)]) false
      = .arr [.obj [("y", .num 2)]] :=
  ⟨rfl, jsonStore_appendNonArray_c2 (.obj [("x", .num 1)]) rfl⟩

/-- C3: `readJSONFile` fails with the not-found error when the file does
not exist, fails with the malformed-content error when the parsed root is
not an array, and otherwise returns the parsed array unchanged. -/
theorem jsonStore_read_c3 (p : String) (j : Json) (xs : List Json) :
    (j.isArr = false →
      IOF.readJSONFile p (some j)
        = .error ("Failed to read JSON from " ++ p ++
            ": File content is not an array: " ++ p)) ∧
    IOF.readJSONFile p none
      = .error ("Failed to read JSON from " ++ p ++ ": File not found: " ++ p) ∧
    IOF.readJSONFile p (some (.arr xs)) = .ok xs := by
  refine ⟨?_, rfl, rfl⟩
  intro hj
  cases j <;> simp_all [IOF.readJSONFile, Json.isArr]

theorem jsonStore_read_c3_witness :
    IOF.readJSONFile "db.json" (some (.obj [("x", .num 1)]))
      = .error ("Failed to read JSON from " ++ "db.json" ++
          ": File content is not an array: " ++ "db.json") :=
  (jsonStore_read_c3 "db.json" (.obj [("x", .num 1)]) []).1 rfl

/-- C4: every successful `writeJSONFile` leaves content whose root is an
array; with `overwrite = true` a non-array data item is wrapped in a
one-element array and an array data item is used as-is. -/
theorem jsonStore_rootArray_c4 (fileContent : Option Json) (data : Json) (ow : Bool) :
    (∃ l, IOF.writeJSONFile fileContent data ow = .arr l) ∧
    (data.isArr = false → IOF.writeJSONFile fileContent data true = .arr [data]) ∧
    (∀ xs, IOF.writeJSONFile fileContent (.arr xs) true = .arr xs) := by
  refine ⟨?_, ?_, fun xs => by simp [IOF.writeJSONFile]⟩
  · unfold IOF.writeJSONFile
    split
    · cases data <;> exact ⟨_, rfl⟩
    · cases data <;> exact ⟨_, rfl⟩
  · intro hd
    cases data <;> simp_all [IOF.writeJSONFile, Json.isArr]

theorem jsonStore_rootArray_c4_witness :
    (Json.obj [("k", Json.num 0)]).isArr = false ∧
    IOF.writeJSONFile (some (.arr [.num 7])) (.obj [("k", .num 0)]) true
      = .arr [.obj [("k", .num 0)]] :=
  ⟨rfl, (jsonStore_rootArray_c4 (some (.arr [.num 7])) (.obj [("k", .num 0)]) false).2.1 rfl⟩

/-! ### MIME resolver (C8) -/

/-- C8 fails on the code: the extension is not lowercased before the
lookup, so `"Photo.JPG"` does not resolve like `"photo.jpg"`. -/
theorem mimeType_caseInsensitive_c8_counterexample :
    mimeType "Photo.JPG" ≠ mimeType "photo.jpg" ∧
    mimeType "Photo.JPG" = "application/octet-stream" ∧
    mimeType "photo.jpg" = "image/jpeg" := by
  refine ⟨?_, rfl, rfl⟩
  decide

set_option maxHeartbeats 1000000 in
theorem mimeSwitch_default (e : String) (he : e ∉ specMimeTable.map Prod.fst) :
    mimeSwitch e = "application/octet-stream" := by
  unfold mimeSwitch
  split <;> first | rfl | (revert he; decide)

set_option maxHeartbeats 1000000 in
theorem mimeSwitch_table : ∀ p ∈ specMimeTable, mimeSwitch p.1 = p.2 := by decide

/-- C8 (amended): `mimeType` looks up the extension exactly as written
(the substring after the last dot, not lowercased): a recognised
lowercase extension yields the documented constant, any other extension
(or a missing one) yields `application/octet-stream`, and the lookup is
case-sensitive — `"Photo.JPG"` yields `application/octet-stream` while
`"photo.jpg"` yields `image/jpeg`. -/
theorem mimeType_lookup_c8_amended (fileName : String) :
    (mimeType fileName = mimeSwitch (mimeExt fileName)) ∧
    (∀ p ∈ specMimeTable, mimeSwitch p.1 = p.2) ∧
    ((mimeExt fileName) ∉ specMimeTable.map Prod.fst →
      mimeType fileName = "application/octet-stream") ∧
    mimeType "photo.jpg" = "image/jpeg" ∧
    mimeType "Photo.JPG" = "application/octet-stream" := by
  refine ⟨rfl, mimeSwitch_table, ?_, rfl, rfl⟩
  intro he
  exact mimeSwitch_default _ he

theorem mimeType_lookup_c8_amended_witness :
    (mimeExt "data.tar.xz" ∉ specMimeTable.map Prod.fst) ∧
    mimeType "data.tar.xz" = "application/octet-stream" ∧
    ("png", "image/png") ∈ specMimeTable ∧
    mimeSwitch "png" = "image/png" :=
  ⟨by decide, (mimeType_lookup_c8_amended "data.tar.xz").2.2.1 (by decide),
   by decide, (mimeType_lookup_c8_amended "data.tar.xz").2.1 ("png", "image/png") (by decide)⟩

/-! ### Buffer digest (C9) -/

theorem hexDigit_mem (n : Nat) : Sha256.hexDigit n ∈ Sha256.hexChars := by
  have h : n % 16 < 16 := Nat.mod_lt _ (by omega)
  have hall : ∀ k, k < 16 → Sha256.hexChars.getD k '0' ∈ Sha256.hexChars := by decide
  exact hall _ h

theorem word32hex_length (n : Nat) : (Sha256.word32hex n).length = 8 := rfl

theorem word32hex_chars (n : Nat) :
    ∀ c ∈ (Sha256.word32hex n).data, c ∈ Sha256.hexChars := by
  intro c hc
  have hd : (Sha256.word32hex n).data =
      [Sha256.hexDigit (n >>> 28), Sha256.hexDigit (n >>> 24),
       Sha256.hexDigit (n >>> 20), Sha256.hexDigit (n >>> 16),
       Sha256.hexDigit (n >>> 12), Sha256.hexDigit (n >>> 8),
       Sha256.hexDigit (n >>> 4), Sha256.hexDigit n] := rfl
  rw [hd] at hc
  simp only [List.mem_cons, List.not_mem_nil, or_false] at hc
  rcases hc with rfl | rfl | rfl | rfl | rfl | rfl | rfl | rfl <;> exact hexDigit_mem _

theorem sha256hex_length (bs : List Nat) : (Sha256.sha256hex bs).length = 64 := by
  unfold Sha256.sha256hex
  simp [String.length_append, word32hex_length]

theorem sha256hex_chars (bs : List Nat) :
    ∀ c ∈ (Sha256.sha256hex bs).data, c ∈ Sha256.hexChars := by
  intro c hc
  unfold Sha256.sha256hex at hc
  simp only [String.data_append, List.mem_append] at hc
  rcases hc with ((((((h | h) | h) | h) | h) | h) | h) | h <;>
    exact word32hex_chars _ _ h

/-- C9: both buffer helpers reject a non-buffer argument and an empty
buffer with the source's validation errors; on a non-empty buffer,
`calculateHashByBuffer` returns the SHA-256 digest — a 64-character
string all of whose characters are lowercase hexadecimal digits — and
`calculateSizeByBuffer` returns the buffer's byte length.  Both are pure
functions of the buffer, so repeated calls are deterministic by
construction. -/
theorem bufferDigest_c9 (bs : List Nat) :
    IOF.calculateHashByBuffer .nonBuffer = .error "Input must be a Buffer" ∧
    IOF.calculateSizeByBuffer .nonBuffer = .error "Input must be a Buffer" ∧
    IOF.calculateHashByBuffer (.buffer []) = .error "Buffer cannot be empty" ∧
    IOF.calculateSizeByBuffer (.buffer []) = .error "Buffer cannot be empty" ∧
    (bs ≠ [] →
      IOF.calculateHashByBuffer (.buffer bs) = .ok (Sha256.sha256hex bs) ∧
      (Sha256.sha256hex bs).length = 64 ∧
      (∀ c ∈ (Sha256.sha256hex bs).data, c ∈ Sha256.hexChars) ∧
      IOF.calculateSizeByBuffer (.buffer bs) = .ok bs.length) := by
  refine ⟨rfl, rfl, rfl, rfl,
    fun h => ⟨?_, sha256hex_length bs, sha256hex_chars bs, ?_⟩⟩
  · simp [IOF.calculateHashByBuffer, List.length_eq_zero, h]
  · simp [IOF.calculateSizeByBuffer, List.length_eq_zero, h]

theorem bufferDigest_c9_witness :
    ([104, 101, 108, 108, 111] : List Nat) ≠ [] ∧
    (IOF.calculateHashByBuffer (.buffer [104, 101, 108, 108, 111])
        = .ok (Sha256.sha256hex [104, 101, 108, 108, 111]) ∧
      (Sha256.sha256hex [104, 101, 108, 108, 111]).length = 64 ∧
      (∀ c ∈ (Sha256.sha256hex [104, 101, 108, 108, 111]).data,
        c ∈ Sha256.hexChars) ∧
      IOF.calculateSizeByBuffer (.buffer [104, 101, 108, 108, 111])
        = .ok ([104, 101, 108, 108, 111] : List Nat).length) :=
  ⟨by decide, (bufferDigest_c9 [104, 101, 108, 108, 111]).2.2.2.2 (by decide)⟩

/-! ### Logger (C5, C6, C7, C10) -/

theorem stringMk_ne_empty (w : List Char) (hw : w ≠ []) : String.mk w ≠ "" := by
  intro hcon
  exact hw (congrArg String.data hcon)

theorem fnTag_ne_empty (nm : String) : ("fn: " ++ nm) ≠ "" := by
  intro h
  have h4 : ("fn: " ++ nm).length = 4 + nm.length := String.length_append _ _
  have h0 : ("" : String).length = 0 := rfl
  rw [h] at h4
  omega

theorem matchAtNameAt_ne (l : List Char) (nm : String)
    (h : matchAtNameAt l = some nm) : nm ≠ "" := by
  unfold matchAtNameAt at h
  repeat' split at h
  all_goals first
    | exact Option.noConfusion h
    | (rw [← Option.some.inj h]; exact stringMk_ne_empty _ (by assumption))

theorem findAtName_ne (l : List Char) (nm : String)
    (h : findAtName l = some nm) : nm ≠ "" := by
  induction l with
  | nil => exact Option.noConfusion h
  | cons c cs ih =>
    unfold findAtName at h
    cases hm : matchAtNameAt (c :: cs) with
    | some nm2 =>
      simp only [hm] at h
      rw [← Option.some.inj h]
      exact matchAtNameAt_ne _ _ hm
    | none =>
      simp only [hm] at h
      exact ih h

theorem goodNameLine_ne (line : String) (nm : String)
    (h : goodNameLine line = some nm) : nm ≠ "" := by
  unfold goodNameLine at h
  cases hf : findAtName line.data with
  | none => simp [hf] at h
  | some nm2 =>
    simp only [hf] at h
    split at h
    · exact Option.noConfusion h
    · rw [← Option.some.inj h]
      exact findAtName_ne _ _ hf

theorem scanStack_shape (ls : List String) :
    scanStack ls = "" ∨ ∃ nm, nm ≠ "" ∧ scanStack ls = "fn: " ++ nm := by
  induction ls with
  | nil => exact Or.inl rfl
  | cons line rest ih =>
    unfold scanStack
    by_cases h1 : isSkippedLine line = true
    · simpa [h1] using ih
    by_cases h2 : anonSkipLine line = true
    · simpa [h1, h2] using ih
    by_cases h3 : trimNonempty line = true
    · cases hg : goodNameLine line with
      | some nm =>
        refine Or.inr ⟨nm, goodNameLine_ne _ _ hg, ?_⟩
        simp [h1, h2, h3, hg]
      | none =>
        by_cases h4 : includesSub line "at <anonymous>" = true
        · refine Or.inr ⟨"<anonymous>", by decide, ?_⟩
          simp [h1, h2, h3, hg, h4]
        · simpa [h1, h2, h3, hg, h4] using ih
    · simpa [h1, h2, h3] using ih

theorem scanStack_ne_empty (ls : List String)
    (h : ∃ l ∈ ls, usableFrame l = true) : scanStack ls ≠ "" := by
  induction ls with
  | nil => simp at h
  | cons line rest ih =>
    obtain ⟨l, hl, hu⟩ := h
    rcases List.mem_cons.mp hl with rfl | hmem
    · unfold usableFrame at hu
      simp only [Bool.and_eq_true, Bool.not_eq_true'] at hu
      obtain ⟨⟨⟨h1, h2⟩, h3⟩, h4⟩ := hu
      unfold scanStack
      cases hg : goodNameLine l with
      | some nm =>
        simp [h1, h2, h3, hg]
        exact fnTag_ne_empty nm
      | none => simp [hg] at h4
    · have ht : scanStack rest ≠ "" := ih ⟨l, hmem, hu⟩
      unfold scanStack
      by_cases h1 : isSkippedLine line = true
      · simpa [h1] using ht
      by_cases h2 : anonSkipLine line = true
      · simpa [h1, h2] using ht
      by_cases h3 : trimNonempty line = true
      · cases hg : goodNameLine line with
        | some nm =>
          simp [h1, h2, h3, hg]
          exact fnTag_ne_empty nm
        | none =>
          by_cases h4 : includesSub line "at <anonymous>" = true
          · simp [h1, h2, h3, hg, h4]
          · simpa [h1, h2, h3, hg, h4] using ht
      · simpa [h1, h2, h3] using ht

theorem replaceFirst_fn (nm : String) :
    replaceFirst "fn: " "" ("fn: " ++ nm) = nm := by
  unfold replaceFirst
  have hd : ("fn: " ++ nm).data = 'f' :: 'n' :: ':' :: ' ' :: nm.data := rfl
  rw [hd]
  have hr : replaceFirstCh "fn: ".data "".data
      ('f' :: 'n' :: ':' :: ' ' :: nm.data) = nm.data := by
    show replaceFirstCh ['f', 'n', ':', ' '] [] _ = _
    simp [replaceFirstCh, isPrefixCh]
  rw [hr]

/-- C5: for every level method, plain or forced, and for `custom`, the
returned record's `message` preserves the original argument shape — the
single argument's own value when exactly one is given, the ordered list of
arguments when more than one, the empty string when none — and the
record's `level` is the level tag (the caller-supplied type for
`custom`).  Each method is also shown to be its documented instance of
`logWithReturn` / `customWithReturn`. -/
theorem logger_messageShape_c5 (flag wfn : Bool) (t ty : String) (c : Option String)
    (st : List String) (args : List JSVal) (a : JSVal) :
    (Logger.logWithReturn flag t st ty wfn []).record.message = .str "" ∧
    (Logger.logWithReturn flag t st ty wfn [a]).record.message = a ∧
    (2 ≤ args.length →
      (Logger.logWithReturn flag t st ty wfn args).record.message = .arr args) ∧
    (Logger.logWithReturn flag t st ty wfn args).record.level = ty ∧
    (Logger.customWithReturn flag t st ty c wfn []).record.message = .str "" ∧
    (Logger.customWithReturn flag t st ty c wfn [a]).record.message = a ∧
    (2 ≤ args.length →
      (Logger.customWithReturn flag t st ty c wfn args).record.message = .arr args) ∧
    (Logger.customWithReturn flag t st ty c wfn args).record.level = ty ∧
    Logger.info flag t st args = Logger.logWithReturn flag t st "INFO" flag args ∧
    Logger.success flag t st args = Logger.logWithReturn flag t st "SUCCESS" flag args ∧
    Logger.error flag t st args = Logger.logWithReturn flag t st "ERROR" flag args ∧
    Logger.warn flag t st args = Logger.logWithReturn flag t st "WARN" flag args ∧
    Logger.debug flag t st args = Logger.logWithReturn flag t st "DEBUG" flag args ∧
    Logger.custom flag t st ty c args = Logger.customWithReturn flag t st ty c flag args ∧
    Logger.pfn.info flag t st args = Logger.logWithReturn flag t st "INFO" true args ∧
    Logger.pfn.success flag t st args = Logger.logWithReturn flag t st "SUCCESS" true args ∧
    Logger.pfn.error flag t st args = Logger.logWithReturn flag t st "ERROR" true args ∧
    Logger.pfn.warn flag t st args = Logger.logWithReturn flag t st "WARN" true args ∧
    Logger.pfn.debug flag t st args = Logger.logWithReturn flag t st "DEBUG" true args ∧
    Logger.pfn.custom flag t st ty c args
      = Logger.customWithReturn flag t st ty c true args := by
  refine ⟨rfl, rfl, ?_, rfl, rfl, rfl, ?_, rfl, rfl, rfl, rfl, rfl, rfl, rfl,
    rfl, rfl, rfl, rfl, rfl, rfl⟩
  · intro h
    rcases args with _ | ⟨x, _ | ⟨y, rest⟩⟩
    · simp at h
    · simp at h
    · rfl
  · intro h
    rcases args with _ | ⟨x, _ | ⟨y, rest⟩⟩
    · simp at h
    · simp at h
    · rfl

theorem logger_messageShape_c5_witness :
    2 ≤ ([JSVal.str "a", JSVal.str "b"] : List JSVal).length ∧
    (Logger.logWithReturn false "t" [] "INFO" false
        [JSVal.str "a", JSVal.str "b"]).record.message
      = JSVal.arr [JSVal.str "a", JSVal.str "b"] ∧
    (Logger.customWithReturn false "t" [] "NOTE" none false
        [JSVal.str "a", JSVal.str "b"]).record.message
      = JSVal.arr [JSVal.str "a", JSVal.str "b"] :=
  ⟨by decide,
   (logger_messageShape_c5 false false "t" "INFO" none []
     [JSVal.str "a", JSVal.str "b"] (JSVal.str "a")).2.2.1 (by decide),
   (logger_messageShape_c5 false false "t" "NOTE" none []
     [JSVal.str "a", JSVal.str "b"] (JSVal.str "a")).2.2.2.2.2.2.1 (by decide)⟩

/-- C6: the forced variants (`Logger.pfn.*`) interpolate the
forced-detection caller tag into the console line regardless of the
`showFunctionName` flag, and that tag is non-empty whenever a usable
named frame exists in the stack below the logger's own frames; the plain
variants interpolate an empty tag when the flag is false and the detected
tag when it is true. -/
theorem logger_callerTag_c6 (flag : Bool) (t ty : String) (c : Option String)
    (st : List String) (args : List JSVal) :
    ((∃ l ∈ st.drop 2, usableFrame l = true) →
      (Logger.pfn.info flag t st args).displayFn ≠ "") ∧
    (Logger.pfn.info flag t st args).displayFn = Logger.getCallerNameForced st ∧
    (Logger.pfn.success flag t st args).displayFn = Logger.getCallerNameForced st ∧
    (Logger.pfn.error flag t st args).displayFn = Logger.getCallerNameForced st ∧
    (Logger.pfn.warn flag t st args).displayFn = Logger.getCallerNameForced st ∧
    (Logger.pfn.debug flag t st args).displayFn = Logger.getCallerNameForced st ∧
    (Logger.pfn.custom flag t st ty c args).displayFn = Logger.getCallerNameForced st ∧
    (Logger.info false t st args).displayFn = "" ∧
    (Logger.success false t st args).displayFn = "" ∧
    (Logger.error false t st args).displayFn = "" ∧
    (Logger.warn false t st args).displayFn = "" ∧
    (Logger.debug false t st args).displayFn = "" ∧
    (Logger.custom false t st ty c args).displayFn = "" ∧
    (Logger.info true t st args).displayFn = Logger.getCallerNameForced st ∧
    (Logger.custom true t st ty c args).displayFn = Logger.getCallerNameForced st := by
  refine ⟨?_, rfl, rfl, rfl, rfl, rfl, rfl, rfl, rfl, rfl, rfl, rfl, rfl, rfl, rfl⟩
  intro h
  exact scanStack_ne_empty _ h

theorem logger_callerTag_c6_witness :
    (∃ l ∈ (["Error",
      "    at Function.logWithReturn (dist/index.mjs:1348:43)",
      "    at myHandler (src/app.ts:10:5)"] : List String).drop 2,
        usableFrame l = true) ∧
    (Logger.pfn.info false "01/01/2024:00:00:00"
      ["Error",
       "    at Function.logWithReturn (dist/index.mjs:1348:43)",
       "    at myHandler (src/app.ts:10:5)"] []).displayFn ≠ "" :=
  ⟨by decide,
   (logger_callerTag_c6 false "01/01/2024:00:00:00" "X" none
     ["Error",
      "    at Function.logWithReturn (dist/index.mjs:1348:43)",
      "    at myHandler (src/app.ts:10:5)"] []).1 (by decide)⟩

mutual

theorem jsonStringifyT_toRaw : ∀ v : JSVal,
    jsonStringifyT v.toRaw = .ok (jsonStringify v)
  | .null => rfl
  | .bool _ => rfl
  | .num _ => rfl
  | .str _ => rfl
  | .error _ _ => rfl
  | .arr xs => by
      simp [JSVal.toRaw, jsonStringifyT, jsonStringify, jsonStringifyListT_toRaw xs]
  | .obj fs => by
      simp [JSVal.toRaw, jsonStringifyT, jsonStringify, jsonStringifyFieldsT_toRaw fs]

theorem jsonStringifyListT_toRaw : ∀ xs : List JSVal,
    jsonStringifyListT (JSVal.toRawList xs) = .ok (jsonStringifyList xs)
  | [] => rfl
  | [x] => by
      simp [JSVal.toRawList, jsonStringifyListT, jsonStringifyList,
        jsonStringifyT_toRaw x]
  | x :: y :: rest => by
      have hr := jsonStringifyListT_toRaw (y :: rest)
      simp only [JSVal.toRawList] at hr
      simp [JSVal.toRawList, jsonStringifyListT, jsonStringifyList,
        jsonStringifyT_toRaw x, hr]

theorem jsonStringifyFieldsT_toRaw : ∀ fs : List (String × JSVal),
    jsonStringifyFieldsT (JSVal.toRawFields fs) = .ok (jsonStringifyFields fs)
  | [] => rfl
  | [(k, v)] => by
      simp [JSVal.toRawFields, jsonStringifyFieldsT, jsonStringifyFields,
        jsonStringifyT_toRaw v]
  | (k, v) :: (k2, v2) :: rest => by
      have hr := jsonStringifyFieldsT_toRaw ((k2, v2) :: rest)
      simp only [JSVal.toRawFields] at hr
      simp [JSVal.toRawFields, jsonStringifyFieldsT, jsonStringifyFields,
        jsonStringifyT_toRaw v, hr]

end

theorem stringifyArgT_toRaw (v : JSVal) :
    stringifyArgT v.toRaw = .ok (stringifyArg v) := by
  cases v with
  | null => rfl
  | bool b => rfl
  | num n => rfl
  | str s => rfl
  | error st m => rfl
  | arr xs => exact jsonStringifyT_toRaw (.arr xs)
  | obj fs => exact jsonStringifyT_toRaw (.obj fs)

theorem stringifyArgsT_toRaw (args : List JSVal) :
    stringifyArgsT (JSVal.toRawList args) = .ok (args.map stringifyArg) := by
  induction args with
  | nil => rfl
  | cons a as ih =>
    simp [JSVal.toRawList, stringifyArgsT, stringifyArgT_toRaw a, ih]

theorem logWithReturn_toRaw (flag wfn : Bool) (t ty : String) (st : List String)
    (args : List JSVal) :
    LoggerJS.logWithReturn flag t st ty wfn (JSVal.toRawList args)
      = .ok (Logger.logWithReturn flag t st ty wfn args).toRaw := by
  simp only [LoggerJS.logWithReturn, Logger.logWithReturn, LogOutput.toRaw,
    stringifyArgsT_toRaw]
  cases args with
  | nil => rfl
  | cons a as =>
    cases as with
    | nil => rfl
    | cons b rest => rfl

theorem customWithReturn_toRaw (flag wfn : Bool) (t ty : String) (c : Option String)
    (st : List String) (args : List JSVal) :
    LoggerJS.customWithReturn flag t st ty c wfn (JSVal.toRawList args)
      = .ok (Logger.customWithReturn flag t st ty c wfn args).toRaw := by
  simp only [LoggerJS.customWithReturn, Logger.customWithReturn, LogOutput.toRaw,
    stringifyArgsT_toRaw]
  cases args with
  | nil => rfl
  | cons a as =>
    cases as with
    | nil => rfl
    | cons b rest => rfl

theorem stringifyArgsT_ok (args : List JSRaw)
    (h : ∀ a ∈ args, serializes a = true) :
    ∃ l, stringifyArgsT args = .ok l := by
  induction args with
  | nil => exact ⟨[], rfl⟩
  | cons a as ih =>
    have ha := h a (List.mem_cons_self a as)
    unfold serializes at ha
    obtain ⟨l, hl⟩ := ih (fun x hx => h x (List.mem_cons_of_mem a hx))
    cases hs : stringifyArgT a with
    | error e => rw [hs] at ha; simp at ha
    | ok s => exact ⟨s :: l, by simp [stringifyArgsT, hs, hl]⟩

theorem stringifyArgsT_error (args : List JSRaw)
    (h : ∃ a ∈ args, serializes a = false) :
    ∃ e, stringifyArgsT args = .error e := by
  induction args with
  | nil => simp at h
  | cons a as ih =>
    cases hs : stringifyArgT a with
    | error e => exact ⟨e, by simp [stringifyArgsT, hs]⟩
    | ok s =>
      obtain ⟨x, hx, hfx⟩ := h
      rcases List.mem_cons.mp hx with rfl | hmem
      · unfold serializes at hfx
        rw [hs] at hfx
        simp at hfx
      · obtain ⟨e, he⟩ := ih ⟨x, hmem, hfx⟩
        exact ⟨e, by simp [stringifyArgsT, hs, he]⟩

theorem logWithReturnT_ok (flag wfn : Bool) (t ty : String) (st : List String)
    (args : List JSRaw) (h : ∀ a ∈ args, serializes a = true) :
    ∃ out, LoggerJS.logWithReturn flag t st ty wfn args = .ok out ∧
      out.writes.length = 1 := by
  obtain ⟨l, hl⟩ := stringifyArgsT_ok args h
  simp only [LoggerJS.logWithReturn, hl]
  exact ⟨_, rfl, rfl⟩

theorem customWithReturnT_ok (flag wfn : Bool) (t ty : String) (c : Option String)
    (st : List String) (args : List JSRaw) (h : ∀ a ∈ args, serializes a = true) :
    ∃ out, LoggerJS.customWithReturn flag t st ty c wfn args = .ok out ∧
      out.writes.length = 1 := by
  obtain ⟨l, hl⟩ := stringifyArgsT_ok args h
  simp only [LoggerJS.customWithReturn, hl]
  exact ⟨_, rfl, rfl⟩

theorem logWithReturnT_error (flag wfn : Bool) (t ty : String) (st : List String)
    (args : List JSRaw) (h : ∃ a ∈ args, serializes a = false) :
    ∃ e, LoggerJS.logWithReturn flag t st ty wfn args = .error e := by
  obtain ⟨e, he⟩ := stringifyArgsT_error args h
  exact ⟨e, by simp only [LoggerJS.logWithReturn, he]⟩

theorem customWithReturnT_error (flag wfn : Bool) (t ty : String) (c : Option String)
    (st : List String) (args : List JSRaw) (h : ∃ a ∈ args, serializes a = false) :
    ∃ e, LoggerJS.customWithReturn flag t st ty c wfn args = .error e := by
  obtain ⟨e, he⟩ := stringifyArgsT_error args h
  exact ⟨e, by simp only [LoggerJS.customWithReturn, he]⟩

/-- C7 fails on the code: `logWithReturn` and `customWithReturn` pass
every `typeof "object"` argument to `JSON.stringify` with no
`try`/`catch`, and `JSON.stringify` throws a `TypeError` on an object
carrying a `BigInt`-valued property — so `Logger.info` on the plain
object with `x` bound to `BigInt` `1` raises instead of completing,
writing a line, or returning a record.  (A circular object makes it throw
the same way, but has no counterpart in an inductive value.) -/
theorem logger_neverRaises_c7_counterexample :
    LoggerJS.info false "01/01/2024:00:00:00" []
        [JSRaw.obj [("x", JSRaw.bigint 1)]]
      = .error "TypeError: Do not know how to serialize a BigInt" ∧
    LoggerJS.custom false "01/01/2024:00:00:00" [] "NOTE" none
        [JSRaw.obj [("x", JSRaw.bigint 1)]]
      = .error "TypeError: Do not know how to serialize a BigInt" := ⟨rfl, rfl⟩

/-- C7 (amended): a `Logger` call completes normally exactly when every
argument is accepted by the console rendering.  If every argument
serialises, `logWithReturn` and `customWithReturn` return an outcome with
exactly one console write — and every method, plain or forced, is its
documented instance of them, for every level, flag value, and color
option (absent or unrecognised).  If some argument does not serialise,
`JSON.stringify`'s `TypeError` propagates and the call raises, writing
nothing and returning nothing. -/
theorem logger_raises_c7_amended (flag wfn : Bool) (t ty : String)
    (c : Option String) (st : List String) (args : List JSRaw) :
    ((∀ a ∈ args, serializes a = true) →
      (∃ out, LoggerJS.logWithReturn flag t st ty wfn args = .ok out ∧
        out.writes.length = 1) ∧
      (∃ out, LoggerJS.customWithReturn flag t st ty c wfn args = .ok out ∧
        out.writes.length = 1)) ∧
    ((∃ a ∈ args, serializes a = false) →
      (∃ e, LoggerJS.logWithReturn flag t st ty wfn args = .error e) ∧
      (∃ e, LoggerJS.customWithReturn flag t st ty c wfn args = .error e)) ∧
    LoggerJS.info flag t st args = LoggerJS.logWithReturn flag t st "INFO" flag args ∧
    LoggerJS.success flag t st args
      = LoggerJS.logWithReturn flag t st "SUCCESS" flag args ∧
    LoggerJS.error flag t st args = LoggerJS.logWithReturn flag t st "ERROR" flag args ∧
    LoggerJS.warn flag t st args = LoggerJS.logWithReturn flag t st "WARN" flag args ∧
    LoggerJS.debug flag t st args = LoggerJS.logWithReturn flag t st "DEBUG" flag args ∧
    LoggerJS.custom flag t st ty c args
      = LoggerJS.customWithReturn flag t st ty c flag args ∧
    LoggerJS.pfn.info flag t st args = LoggerJS.logWithReturn flag t st "INFO" true args ∧
    LoggerJS.pfn.success flag t st args
      = LoggerJS.logWithReturn flag t st "SUCCESS" true args ∧
    LoggerJS.pfn.error flag t st args
      = LoggerJS.logWithReturn flag t st "ERROR" true args ∧
    LoggerJS.pfn.warn flag t st args
      = LoggerJS.logWithReturn flag t st "WARN" true args ∧
    LoggerJS.pfn.debug flag t st args
      = LoggerJS.logWithReturn flag t st "DEBUG" true args ∧
    LoggerJS.pfn.custom flag t st ty c args
      = LoggerJS.customWithReturn flag t st ty c true args := by
  refine ⟨?_, ?_, rfl, rfl, rfl, rfl, rfl, rfl, rfl, rfl, rfl, rfl, rfl, rfl⟩
  · intro h
    exact ⟨logWithReturnT_ok flag wfn t ty st args h,
      customWithReturnT_ok flag wfn t ty c st args h⟩
  · intro h
    exact ⟨logWithReturnT_error flag wfn t ty st args h,
      customWithReturnT_error flag wfn t ty c st args h⟩

theorem logger_raises_c7_amended_witness :
    ((∀ a ∈ [JSRaw.str "hello"], serializes a = true) ∧
      (∃ out, LoggerJS.logWithReturn false "t" [] "INFO" false [JSRaw.str "hello"]
          = .ok out ∧ out.writes.length = 1)) ∧
    ((∃ a ∈ [JSRaw.obj [("x", JSRaw.bigint 2)]], serializes a = false) ∧
      (∃ e, LoggerJS.logWithReturn false "t" [] "INFO" false
          [JSRaw.obj [("x", JSRaw.bigint 2)]] = .error e)) :=
  ⟨⟨by decide,
    ((logger_raises_c7_amended false false "t" "INFO" none [] [JSRaw.str "hello"]).1
      (by decide)).1⟩,
   ⟨by decide,
    ((logger_raises_c7_amended false false "t" "INFO" none []
        [JSRaw.obj [("x", JSRaw.bigint 2)]]).2.1 (by decide)).1⟩⟩

/-- C10 (implicit): the `pfn` field of the returned record is always the
forced-detection caller name with the `fn: ` prefix stripped — for the
plain and the forced variants alike, whatever the flag — so it is
non-empty whenever a usable caller frame exists; the flag and the
plain/forced distinction never change the `pfn` field. -/
theorem logger_pfnField_c10 (flag flag2 : Bool) (t ty : String) (c : Option String)
    (st : List String) (args : List JSVal) :
    ((∃ l ∈ st.drop 2, usableFrame l = true) →
      (Logger.info flag t st args).record.pfn ≠ "") ∧
    (Logger.info flag t st args).record.pfn
      = replaceFirst "fn: " "" (Logger.getCallerNameForced st) ∧
    (Logger.pfn.info flag t st args).record.pfn
      = replaceFirst "fn: " "" (Logger.getCallerNameForced st) ∧
    (Logger.success flag t st args).record.pfn
      = replaceFirst "fn: " "" (Logger.getCallerNameForced st) ∧
    (Logger.pfn.success flag t st args).record.pfn
      = replaceFirst "fn: " "" (Logger.getCallerNameForced st) ∧
    (Logger.error flag t st args).record.pfn
      = replaceFirst "fn: " "" (Logger.getCallerNameForced st) ∧
    (Logger.pfn.error flag t st args).record.pfn
      = replaceFirst "fn: " "" (Logger.getCallerNameForced st) ∧
    (Logger.warn flag t st args).record.pfn
      = replaceFirst "fn: " "" (Logger.getCallerNameForced st) ∧
    (Logger.pfn.warn flag t st args).record.pfn
      = replaceFirst "fn: " "" (Logger.getCallerNameForced st) ∧
    (Logger.debug flag t st args).record.pfn
      = replaceFirst "fn: " "" (Logger.getCallerNameForced st) ∧
    (Logger.pfn.debug flag t st args).record.pfn
      = replaceFirst "fn: " "" (Logger.getCallerNameForced st) ∧
    (Logger.custom flag t st ty c args).record.pfn
      = replaceFirst "fn: " "" (Logger.getCallerNameForced st) ∧
    (Logger.pfn.custom flag t st ty c args).record.pfn
      = replaceFirst "fn: " "" (Logger.getCallerNameForced st) ∧
    (Logger.info flag t st args).record.pfn
      = (Logger.pfn.info flag2 t st args).record.pfn ∧
    (Logger.custom flag t st ty c args).record.pfn
      = (Logger.pfn.custom flag2 t st ty c args).record.pfn := by
  refine ⟨?_, rfl, rfl, rfl, rfl, rfl, rfl, rfl, rfl, rfl, rfl, rfl, rfl, rfl, rfl⟩
  intro h
  have hne : scanStack (st.drop 2) ≠ "" := scanStack_ne_empty _ h
  rcases scanStack_shape (st.drop 2) with he | ⟨nm, hnm, he⟩
  · exact absurd he hne
  · show replaceFirst "fn: " "" (Logger.getCallerNameForced st) ≠ ""
    unfold Logger.getCallerNameForced
    rw [he, replaceFirst_fn]
    exact hnm

theorem logger_pfnField_c10_witness :
    (∃ l ∈ (["Error",
      "    at Function.logWithReturn (dist/index.mjs:1348:43)",
      "    at saveUser (src/db.ts:42:11)"] : List String).drop 2,
        usableFrame l = true) ∧
    (Logger.info true "02/01/2024:00:00:00"
      ["Error",
       "    at Function.logWithReturn (dist/index.mjs:1348:43)",
       "    at saveUser (src/db.ts:42:11)"] []).record.pfn ≠ "" :=
  ⟨by decide,
   (logger_pfnField_c10 true true "02/01/2024:00:00:00" "X" none
     ["Error",
      "    at Function.logWithReturn (dist/index.mjs:1348:43)",
      "    at saveUser (src/db.ts:42:11)"] []).1 (by decide)⟩
